import Mathlib

/-!
Shallow embedding of the Averix-AI Arbitrum agent (`arbitrumagent/arbitrumAgent.ts`).

The agent's tool layer is translated into pure Lean functions.  Interaction with
the chain RPC, the signing layer and external HTTP APIs is modelled by an
`Oracle` record supplying the outcome of each external call, and every tool
records the external calls it performs in a `ChainCall` trace, so that
"performs zero chain calls" and submission/confirmation ordering become
provable statements about the produced trace.
-/

namespace Averix

/-! ## JavaScript-level primitives used by the source -/

/-- Value of a decimal digit character. -/
def digitVal (c : Char) : Nat := c.toNat - 48

/-- Reads a string of decimal digits as a natural number; `none` if any
character is not a digit.  The empty string yields `some 0` (callers decide
emptiness separately, mirroring JS `Number`). -/
def decDigits? (s : String) : Option Nat :=
  if s.data.all Char.isDigit then
    some (s.data.foldl (fun acc c => acc * 10 + digitVal c) 0)
  else none

/-- Splits a character list at every occurrence of `sep`, JS
`String.prototype.split` style: `n` separators yield `n + 1` (possibly
empty) fields.  Structurally recursive so that concrete inputs evaluate in
the kernel. -/
def splitCharAux (sep : Char) : List Char → List Char → List String
  | [], acc => [String.mk acc.reverse]
  | c :: cs, acc =>
    if c = sep then String.mk acc.reverse :: splitCharAux sep cs []
    else splitCharAux sep cs (c :: acc)

/-- JS `s.split(sep)` for a one-character separator. -/
def splitChar (sep : Char) (s : String) : List String :=
  splitCharAux sep s.data []

/-- JS `s.trim()` (on the ASCII whitespace the agent exercises). -/
def jsTrim (s : String) : String :=
  String.mk ((s.data.dropWhile Char.isWhitespace).reverse.dropWhile Char.isWhitespace).reverse

/-- JS `s.toUpperCase()` on ASCII. -/
def jsToUpper (s : String) : String :=
  String.mk (s.data.map Char.toUpper)

/-- Models JS `Number(str)` on the plain decimal strings the agent exercises:
optional sign, integer part, optional fractional part.  The result is the
value as a scaled pair `(negative, numerator, scale)` denoting
`± numerator / 10 ^ scale`; `none` stands for `NaN`.  JS trims whitespace
and maps the empty string to `0`; hexadecimal and exponent forms are not
modelled (never produced by the agent's inputs). -/
def jsNumber (s : String) : Option (Bool × Nat × Nat) :=
  let t := (jsTrim s).data
  if t.isEmpty then some (false, 0, 0)
  else
    let (neg, body) :=
      match t with
      | '-' :: rest => (true, rest)
      | '+' :: rest => (false, rest)
      | _ => (false, t)
    match splitCharAux '.' body [] with
    | [ip] =>
      if ip = "" then none
      else (decDigits? ip).map (fun n => (neg, n, 0))
    | [ip, fp] =>
      if ip = "" ∧ fp = "" then none
      else
        match decDigits? ip, decDigits? fp with
        | some a, some b => some (neg, a * 10 ^ fp.length + b, fp.length)
        | _, _ => none
    | _ => none

/-- JS string of a possibly-`undefined` value (out-of-range array access). -/
def optStr : Option String → String
  | none => "undefined"
  | some s => s

/-- Lowercase hexadecimal digit. -/
def isHexDigitLower (c : Char) : Bool :=
  c.isDigit || (97 ≤ c.toNat && c.toNat ≤ 102)

/-- Models `ethers.isAddress` on the addresses the agent exercises: a `0x`
prefix followed by 40 lowercase hexadecimal digits.  EIP-55 mixed-case
checksum validation (which needs keccak-256) is not modelled; all concrete
addresses used below are lowercase, where ethers accepts exactly this set. -/
def etherIsAddress (s : String) : Bool :=
  match s.data with
  | '0' :: 'x' :: rest => rest.length == 40 && rest.all isHexDigitLower
  | _ => false

/-- `ethers.isAddress` applied to a possibly-`undefined` token:
`isAddress(undefined)` is `false`. -/
def jsIsAddress : Option String → Bool
  | none => false
  | some s => etherIsAddress s

/-- The amount check of the batch validator: JS
`!(isNaN(Number(amount)) || Number(amount) <= 0)`; `Number(undefined)` is
`NaN`.  A parsed value `± num / 10 ^ scale` is positive exactly when the
sign is non-negative and the numerator is non-zero. -/
def amountOk : Option String → Bool
  | none => false
  | some a =>
    match jsNumber a with
    | some (neg, num, _) => !neg && num != 0
    | none => false

/-- First-match lookup in the in-memory token map (a JS object keyed by
strings has unique keys; insertion below preserves that). -/
def lookupMap : List (String × String) → String → Option String
  | [], _ => none
  | (k, v) :: rest, key => if k = key then some v else lookupMap rest key

/-- JS truthiness of `tokenMap[name]`: `undefined` and the empty string are
falsy. -/
def jsTruthy : Option String → Bool
  | none => false
  | some s => s ≠ ""

/-- JS object property assignment `m[k] = v`: replaces the value of an
existing key in place, otherwise appends the new key. -/
def jsInsert : List (String × String) → String → String → List (String × String)
  | [], k, v => [(k, v)]
  | (k', v') :: rest, k, v =>
    if k' = k then (k, v) :: rest else (k', v') :: jsInsert rest k v

/-! ## Constants from the source -/

def ARBITRUM_EXPLORER_URL : String := "https://sepolia.arbiscan.io"
def ARBITRUM_FAUCET_URL : String := "https://faucet.triangleplatform.com/arbitrum/sepolia"

/-! ## Data model -/

/-- One parsed batch transfer item (the object pushed onto `transferList`):
`type` is the uppercased kind marker, `tokenName` is set only for `TOKEN`
items. -/
structure TransferItem where
  type : String
  toAddr : String
  amount : String
  tokenName : Option String
  deriving DecidableEq, Repr

/-- Tokens of the input stream consumed by one item: 3 for an `ETH` item,
4 for a `TOKEN` item (kind, recipient, amount, assetName). -/
def itemWidth (it : TransferItem) : Nat :=
  if it.type = "TOKEN" then 4 else 3

def sumWidths (items : List TransferItem) : Nat :=
  (items.map itemWidth).sum

/-! ## Batch parser and validator

Translated from `BatchMixedTransferTool._call`, lines 687-715: tokenization by
`transfers.trim().split(" ")` and the `for (let i = 0; i < parts.length;
i += 3)` walk that consumes one extra token (`i++`) for a `TOKEN` item.
Out-of-range accesses `parts[i+1]` / `parts[i+2]` yield `undefined` in JS and
fail the address/amount checks; the structural recursion below reproduces
this via the catch-all cases.  The `i` argument tracks the absolute token
index only for the "Missing token name" message (whose JS float division
`i / 3 + 1` is modelled with natural division). -/

def parseItems (tm : List (String × String)) : List String → Nat →
    Except String (List TransferItem)
  | [], _ => Except.ok []
  | t :: rest, i =>
    let ty := jsToUpper t
    if ty = "TOKEN" then
      match rest with
      | a :: b :: name :: more =>
        if ¬ jsTruthy (lookupMap tm name) then
          Except.error s!"Token {name} not found. Please create it first using createToken."
        else if ¬ etherIsAddress a then
          Except.error s!"Invalid address: {a}"
        else if ¬ amountOk (some b) then
          Except.error s!"Invalid amount: {b}"
        else
          match parseItems tm more (i + 4) with
          | Except.error e => Except.error e
          | Except.ok items =>
            Except.ok (⟨ty, a, b, some name⟩ :: items)
      | _ =>
        Except.error s!"Missing token name for TOKEN transfer at position {i / 3 + 1}"
    else if ty ≠ "ETH" then
      Except.error s!"Invalid type: {ty}. Use \x27ETH\x27 or \x27TOKEN\x27"
    else
      match rest with
      | a :: b :: more =>
        if ¬ etherIsAddress a then
          Except.error s!"Invalid address: {a}"
        else if ¬ amountOk (some b) then
          Except.error s!"Invalid amount: {b}"
        else
          match parseItems tm more (i + 3) with
          | Except.error e => Except.error e
          | Except.ok items =>
            Except.ok (⟨ty, a, b, none⟩ :: items)
      | _ =>
        if ¬ jsIsAddress rest[0]? then
          Except.error s!"Invalid address: {optStr rest[0]?}"
        else
          Except.error s!"Invalid amount: {optStr rest[1]?}"

/-- Tokenization and upfront validation of the batch input, lines 687-715:
`const parts = transfers.trim().split(" ")`, the `parts.length < 3` format
check, then the validating walk. -/
def parseTransfers (tm : List (String × String)) (transfers : String) :
    Except String (List TransferItem) :=
  let parts := splitChar ' ' (jsTrim transfers)
  if parts.length < 3 then
    Except.error "Invalid format. Use: batchMixedTransfer <type1> <to1> <amount1> [tokenName1] <type2> <to2> <amount2> [tokenName2] ..."
  else
    parseItems tm parts 0

/-! ## External-call traces and the oracle

`ChainCall` records every call the agent makes to the chain RPC / signing
layer; "zero chain calls" means the produced trace is `[]`.  `Oracle`
supplies the outcome of each external call: `Except.error` models the
underlying library call throwing. -/

inductive ChainCall where
  /-- `wallet.getNonce()` at the start of a batch. -/
  | getNonce : ChainCall
  /-- Submission of batch item `idx` with explicit nonce `nonce`
  (`wallet.sendTransaction \x7b..., nonce\x7d` or
  `tokenContract.transfer(to, amountWei, \x7b nonce \x7d)`). -/
  | batchSend (idx nonce : Nat) : ChainCall
  /-- `txResponse.wait()` for batch item `idx`. -/
  | batchWait (idx : Nat) : ChainCall
  /-- `wallet.sendTransaction` in `TransferTokensTool`. -/
  | ethSend (toAddr : String) : ChainCall
  /-- `txResponse.wait()` in `TransferTokensTool`. -/
  | txWait : ChainCall
  /-- `provider.getBalance(address)`. -/
  | balanceQuery (addr : String) : ChainCall
  /-- `tokenContract.balanceOf(address)` for the token at `tokenAddr`. -/
  | tokenBalanceQuery (tokenAddr addr : String) : ChainCall
  /-- `wallet.signMessage(message)`. -/
  | msgSign (message : String) : ChainCall
  /-- `provider.getBlockNumber()`. -/
  | blockNumberQuery : ChainCall
  /-- `provider.getLogs(\x7b fromBlock, toBlock, address \x7d)`. -/
  | logsQuery (fromBlock toBlock : Nat) : ChainCall
  /-- `factory.deploy(name, symbol, totalSupply)` and its confirmation. -/
  | contractDeploy (symbol : String) : ChainCall
  /-- `provider.getFeeData()`. -/
  | feeDataQuery : ChainCall
  deriving DecidableEq, Repr

/-- Outcomes of the external calls, indexed where the source distinguishes
call sites.  Batch-item outcomes are indexed by the item's position. -/
structure Oracle where
  /-- Address derived by `new ethers.Wallet(privateKey)`; `error` = the
  constructor threw on bad key material. -/
  walletOf : String → Except String String
  /-- `wallet.getNonce()` for the batch. -/
  baseNonce : Nat
  /-- Submission outcome for batch item `idx`: transaction hash, or the
  thrown error. -/
  send : Nat → Except String String
  /-- `wait()` outcome for batch item `idx`: `ok (some hash)` is a confirmed
  receipt, `ok none` a null receipt, `error` a thrown wait. -/
  receipt : Nat → Except String (Option String)
  /-- `provider.getBalance` result in wei. -/
  ethBalance : Nat
  /-- `balanceOf` per token contract address. -/
  tokenBalance : String → Except String Nat
  /-- `sendTransaction` outcome in `TransferTokensTool`. -/
  sendSingle : Except String String
  /-- `wait()` outcome in `TransferTokensTool`. -/
  waitSingle : Except String Unit
  /-- `wallet.signMessage` outcome. -/
  signature : Except String String
  /-- `provider.getBlockNumber()` outcome. -/
  blockNumber : Except String Nat
  /-- `provider.getLogs` outcome: the transaction hashes of the logs. -/
  logs : Except String (List String)
  /-- `getFeeData().gasPrice`, possibly null. -/
  gasPrice : Option Nat
  /-- `factory.deploy` + `waitForDeployment` + `getAddress` outcome. -/
  deployed : Except String String
  /-- CoinGecko price for the queried token, `ok none` when the JSON field is
  absent. -/
  price : Except String (Option ℚ)

/-- Whole-agent mutable state: the session store (`BlockchainTools.wallet`,
modelled by the derived address when set) and the module-level `tokenMap`. -/
structure AgentState where
  wallet : Option String
  tokenMap : List (String × String)
  deriving DecidableEq, Repr

/-- Result of one tool `_call`: `Except.error` models the call throwing (the
`throw new Error(...)` re-raises), `ok` a returned string; plus the updated
agent state and the trace of external calls made. -/
abbrev ToolResult := Except String String × AgentState × List ChainCall

/-! ## Batch execution

Translated from `BatchMixedTransferTool._call`, lines 717-766.  Each item is
attempted inside a `try`: submission with the explicit current `nonce`, then
`wait()`; a null/invalid receipt throws inside the `try`.  `nonce++` sits at
the end of the `try` block, so it runs only when the item succeeded.  The
`catch` records a failure entry and proceeds to the next item. -/

/-- One entry of the batch report (`results[index]`). -/
structure BatchEntry where
  index : Nat
  item : TransferItem
  success : Bool
  /-- Receipt hash on success, error message on failure. -/
  info : String
  deriving DecidableEq, Repr

/-- Does batch item `idx` run to a confirmed receipt under `o`?  (Submission
returned, `wait()` returned, and the receipt was non-null.) -/
def succAt (o : Oracle) (idx : Nat) : Bool :=
  (match o.send idx with | Except.ok _ => true | Except.error _ => false) &&
  (match o.receipt idx with | Except.ok (some _) => true | _ => false)

/-- The sequential execution loop over the validated `transferList`.  `idx` is
the item's position (`index` of `.entries()`), `nonce` the current value of
the mutable `nonce` variable.  An item whose `type` is neither `"ETH"` nor
(`"TOKEN"` with a token name) matches no branch of the source's `if`/`else
if`, records nothing, and still reaches `nonce++`; the parser never produces
such an item. -/
def execBatch (o : Oracle) : List TransferItem → Nat → Nat →
    List BatchEntry × List ChainCall
  | [], _, _ => ([], [])
  | it :: rest, idx, nonce =>
    if it.type = "ETH" ∨ (it.type = "TOKEN" ∧ it.tokenName.isSome) then
      match o.send idx with
      | Except.error e =>
        let (es, tr) := execBatch o rest (idx + 1) nonce
        (⟨idx, it, false, e⟩ :: es, ChainCall.batchSend idx nonce :: tr)
      | Except.ok _ =>
        match o.receipt idx with
        | Except.error e =>
          let (es, tr) := execBatch o rest (idx + 1) nonce
          (⟨idx, it, false, e⟩ :: es,
            ChainCall.batchSend idx nonce :: ChainCall.batchWait idx :: tr)
        | Except.ok none =>
          let (es, tr) := execBatch o rest (idx + 1) nonce
          (⟨idx, it, false, "Transaction receipt is null or invalid"⟩ :: es,
            ChainCall.batchSend idx nonce :: ChainCall.batchWait idx :: tr)
        | Except.ok (some h) =>
          let (es, tr) := execBatch o rest (idx + 1) (nonce + 1)
          (⟨idx, it, true, h⟩ :: es,
            ChainCall.batchSend idx nonce :: ChainCall.batchWait idx :: tr)
    else
      execBatch o rest (idx + 1) (nonce + 1)

/-- The ETH-or-token label used in the report lines:
`type === "ETH" ? "ETH" : tokenName`. -/
def entryLabel (it : TransferItem) : String :=
  if it.type = "ETH" then "ETH" else optStr it.tokenName

/-- Renders one report entry, mirroring the `results.push` template strings. -/
def renderEntry (e : BatchEntry) : String :=
  if e.success then
    s!"{e.index + 1}. **{entryLabel e.item} Transfer to {e.item.toAddr}**:\n   - Amount: {e.item.amount} {entryLabel e.item}\n   - Status: Successful\n   - Transaction Link: [View Transaction]({ARBITRUM_EXPLORER_URL}/tx/{e.info})"
  else
    s!"{e.index + 1}. **{entryLabel e.item} Transfer to {e.item.toAddr}**:\n   - Amount: {e.item.amount} {entryLabel e.item}\n   - Status: Failed\n   - Error: {e.info}"

/-- The combined report (line 763). -/
def batchSummary (entries : List BatchEntry) : String :=
  s!"The batch mixed transfer completed with {entries.length} operations:\n\n" ++
    String.intercalate "\n\n" (entries.map renderEntry)

/-- `BatchMixedTransferTool._call` (lines 683-766): session gate, upfront
parse/validation with early returns, single `getNonce`, then the sequential
execution loop. -/
def batchMixedTransferCall (st : AgentState) (o : Oracle) (transfers : String) :
    ToolResult :=
  match st.wallet with
  | none =>
    (Except.ok "No wallet set. Please set a wallet with \x27setWallet <privateKey>\x27 first.", st, [])
  | some _ =>
    match parseTransfers st.tokenMap transfers with
    | Except.error e => (Except.ok e, st, [])
    | Except.ok items =>
      let (entries, tr) := execBatch o items 0 o.baseNonce
      (Except.ok (batchSummary entries), st, ChainCall.getNonce :: tr)

/-! ## Single-operation tools (lines 75-794)

Each `_call` is translated with the uniform `ToolResult` signature.  A JS
`return "..."` is `Except.ok`, a `throw new Error("...")` is `Except.error`. -/

/-- `SetWalletTool._call` (lines 87-97): constructs a wallet from the key and
stores it; a constructor failure is caught and re-thrown wrapped. -/
def setWalletCall (st : AgentState) (o : Oracle) (privateKey : String) : ToolResult :=
  match o.walletOf privateKey with
  | Except.ok addr =>
    (Except.ok s!"Wallet set to address: {addr}", { st with wallet := some addr }, [])
  | Except.error e =>
    (Except.error s!"Failed to set wallet: {e}", st, [])

/-- `DisconnectWalletTool._call` (lines 110-113) via
`BlockchainTools.clearWallet` (lines 68-71): sets the stored wallet to null. -/
def disconnectWalletCall (st : AgentState) : ToolResult :=
  (Except.ok "Wallet disconnected successfully", { st with wallet := none }, [])

/-- `GetWalletAddressTool._call` (lines 126-130). -/
def getWalletAddressCall (st : AgentState) : ToolResult :=
  match st.wallet with
  | none => (Except.ok "No wallet set. Please provide a private key.", st, [])
  | some addr => (Except.ok addr, st, [])

/-- Decimal digit characters of a natural number. -/
def natDigits (n : Nat) : String := toString n

/-- Drops trailing `'0'` characters but keeps at least one digit. -/
def trimZeros (l : List Char) : List Char :=
  match l.reverse.dropWhile (· = '0') with
  | [] => ['0']
  | r => r.reverse

/-- Models `ethers.formatUnits(value, decimals)` for `decimals > 0`: integer
part, a dot, and the fractional digits with trailing zeros trimmed (at least
one digit kept).  For `decimals = 0` the plain integer string is returned. -/
def formatUnits (value decimals : Nat) : String :=
  if decimals = 0 then natDigits value
  else
    let ip := value / 10 ^ decimals
    let fp := value % 10 ^ decimals
    let fs := natDigits fp
    let padded := List.replicate (decimals - fs.length) '0' ++ fs.data
    natDigits ip ++ "." ++ String.mk (trimZeros padded)

/-- `ethers.formatEther`. -/
def formatEther (wei : Nat) : String := formatUnits wei 18

/-- One token balance line of `GetBalanceTool` (lines 153-162): the
`balanceOf` try/catch per `tokenMap` entry. -/
def tokenBalanceLine (o : Oracle) (entry : String × String) : String :=
  match o.tokenBalance entry.2 with
  | Except.ok b => s!"{entry.1} Balance: {formatUnits b 0} {entry.1}"
  | Except.error _ => s!"{entry.1} Balance: Unable to fetch"

/-- `GetBalanceTool._call` (lines 143-165): ETH balance plus one line per
registered token, each token fetch individually try/caught. -/
def getBalanceCall (st : AgentState) (o : Oracle) : ToolResult :=
  match st.wallet with
  | none => (Except.ok "No wallet set.", st, [])
  | some addr =>
    let lines :=
      s!"ETH Balance: {formatEther o.ethBalance} ETH" ::
        st.tokenMap.map (tokenBalanceLine o)
    let tr :=
      ChainCall.balanceQuery addr ::
        st.tokenMap.map (fun e => ChainCall.tokenBalanceQuery e.2 addr)
    let res :=
      if lines.length > 0 then String.intercalate "\n" lines
      else "No balances available."
    (Except.ok res, st, tr)

/-- `TransferTokensTool._call` (lines 181-194): session gate, then
`sendTransaction`/`wait` inside a `try` whose `catch` re-throws a wrapped
descriptive error. -/
def transferTokensCall (st : AgentState) (o : Oracle) (toAddr amount : String) :
    ToolResult :=
  match st.wallet with
  | none => (Except.ok "No wallet set.", st, [])
  | some _ =>
    match o.sendSingle with
    | Except.error e =>
      (Except.error s!"Failed to transfer tokens: {e}", st, [ChainCall.ethSend toAddr])
    | Except.ok h =>
      match o.waitSingle with
      | Except.error e =>
        (Except.error s!"Failed to transfer tokens: {e}", st,
          [ChainCall.ethSend toAddr, ChainCall.txWait])
      | Except.ok _ =>
        (Except.ok s!"Transferred {amount} ETH to {toAddr}. Tx: {ARBITRUM_EXPLORER_URL}/tx/{h}",
          st, [ChainCall.ethSend toAddr, ChainCall.txWait])

/-- `SignMessageTool._call` (lines 209-219): session gate, then `signMessage`
inside a `try` whose `catch` re-throws a wrapped descriptive error. -/
def signMessageCall (st : AgentState) (o : Oracle) (message : String) : ToolResult :=
  match st.wallet with
  | none => (Except.ok "No wallet set.", st, [])
  | some _ =>
    match o.signature with
    | Except.ok sig =>
      (Except.ok s!"Message signed: {sig}", st, [ChainCall.msgSign message])
    | Except.error e =>
      (Except.error s!"Failed to sign message: {e}", st, [ChainCall.msgSign message])

/-- Models the `JSON.stringify(recentTxs, null, 2)` rendering of
`GetTransactionHistoryTool` abstractly as one explorer link per line (the
exact JSON indentation is not reproduced; no claim depends on it). -/
def renderTxList (hashes : List String) : String :=
  String.intercalate "\n" (hashes.map (fun h => s!"{ARBITRUM_EXPLORER_URL}/tx/{h}"))

/-- `GetTransactionHistoryTool._call` (lines 234-253): session gate;
`getBlockNumber()` runs outside the `try`, so its failure propagates
unwrapped; the `getLogs` failure is caught and returned as a string. -/
def getTransactionHistoryCall (st : AgentState) (o : Oracle) (count : Nat) :
    ToolResult :=
  match st.wallet with
  | none => (Except.ok "No wallet set.", st, [])
  | some _ =>
    match o.blockNumber with
    | Except.error e => (Except.error e, st, [ChainCall.blockNumberQuery])
    | Except.ok bn =>
      let fromBlock := bn - 99
      match o.logs with
      | Except.error e =>
        (Except.ok s!"Failed to fetch transaction history: {e}", st,
          [ChainCall.blockNumberQuery, ChainCall.logsQuery fromBlock bn])
      | Except.ok hashes =>
        (Except.ok (s!"Recent {count} transactions:\n" ++ renderTxList (hashes.take count)),
          st, [ChainCall.blockNumberQuery, ChainCall.logsQuery fromBlock bn])

/-- `GetGasPriceTool._call` (lines 266-271): no session gate; reads fee data
directly. -/
def getGasPriceCall (st : AgentState) (o : Oracle) : ToolResult :=
  match o.gasPrice with
  | none => (Except.ok "Unable to fetch gas price.", st, [ChainCall.feeDataQuery])
  | some g =>
    (Except.ok s!"Current gas price: {formatUnits g 9} gwei", st, [ChainCall.feeDataQuery])

/-- `GetTokenPriceTool._call` (lines 282-295): external HTTP read; a price of
`0` or an absent field is falsy (`if (!price)`); an HTTP failure is caught
and re-thrown wrapped. -/
def getTokenPriceCall (st : AgentState) (o : Oracle) (token : String) : ToolResult :=
  match o.price with
  | Except.error e => (Except.error s!"Failed to fetch price: {e}", st, [])
  | Except.ok none => (Except.ok s!"Price not found for {token}", st, [])
  | Except.ok (some p) =>
    if p = 0 then (Except.ok s!"Price not found for {token}", st, [])
    else (Except.ok s!"Price of {token}: ${p} USD", st, [])

/-- `GetTrendingTokensTool._call` (lines 304-315): a constant mocked answer
(the JSON rendering of the two mock entries is abstracted). -/
def getTrendingTokensCall (st : AgentState) : ToolResult :=
  (Except.ok "Trending tokens on Arbitrum Sepolia (mocked):\nTEST1 $0.05\nTEST2 $0.10", st, [])

/-- Models JS `parseInt(str)`: trims, optional sign, then the longest leading
digit run; `none` when no digits lead (`NaN`).  The `0x` radix form is not
modelled (never produced here). -/
def jsParseInt (s : String) : Option Int :=
  let t := (jsTrim s).data
  let (neg, body) :=
    match t with
    | '-' :: rest => (true, rest)
    | '+' :: rest => (false, rest)
    | _ => (false, t)
  let digits := body.takeWhile Char.isDigit
  match digits with
  | [] => none
  | _ =>
    let n := digits.foldl (fun acc c => acc * 10 + digitVal c) 0
    some (if neg then -(n : Int) else (n : Int))

/-- `CreateTokenTool._call` (lines 620-641): session gate; positive-supply
check and contract deployment inside a `try` whose `catch` re-throws
wrapped; on success registers `tokenMap[symbol] = contractAddress`. -/
def createTokenCall (st : AgentState) (o : Oracle)
    (name symbol totalSupply : String) : ToolResult :=
  match st.wallet with
  | none => (Except.ok "No wallet set. Please set a wallet first.", st, [])
  | some _ =>
    match jsParseInt totalSupply with
    | none =>
      (Except.error "Failed to create token: Invalid total supply: must be a positive number", st, [])
    | some n =>
      if n ≤ 0 then
        (Except.error "Failed to create token: Invalid total supply: must be a positive number", st, [])
      else
        match o.deployed with
        | Except.error e =>
          (Except.error s!"Failed to create token: {e}", st, [ChainCall.contractDeploy symbol])
        | Except.ok addr =>
          (Except.ok s!"Token {name} ({symbol}) created successfully at {ARBITRUM_EXPLORER_URL}/address/{addr}",
            { st with tokenMap := jsInsert st.tokenMap symbol addr },
            [ChainCall.contractDeploy symbol])

/-- `GetFaucetTokensTool._call` (lines 652-662): pure address check and a
static informational response. -/
def getFaucetTokensCall (st : AgentState) (address : String) : ToolResult :=
  if ¬ etherIsAddress address then
    (Except.ok "Invalid Ethereum address provided.", st, [])
  else
    (Except.ok s!"To get testnet ETH for {address}, visit {ARBITRUM_FAUCET_URL}, paste your address ({address}), and follow the instructions to claim tokens.", st, [])

/-- `HelpTool._call` (lines 775-793): the static command list. -/
def helpCall (st : AgentState) : ToolResult :=
  (Except.ok ("Available commands:\n" ++ String.intercalate "\n"
    ["setWallet <privateKey> - Set your wallet",
     "disconnectWallet - Disconnect and clear your wallet",
     "getWalletAddress - Get your wallet address",
     "getBalance - Check your ETH and token balances",
     "transferTokens <to> <amount> - Transfer ETH tokens",
     "signMessage <message> - Sign a message",
     "getTransactionHistory [count] - Get recent transactions (default 5)",
     "getGasPrice - Get current gas price",
     "getTokenPrice <token> - Get token price (e.g., ETH)",
     "getTrendingTokens - Get trending tokens (mocked for Arbitrum)",
     "createToken <name> <symbol> <totalSupply> - Create a new token",
     "getFaucetTokens <address> - Request testnet ETH from Arbitrum faucet",
     "batchMixedTransfer <type1> <to1> <amount1> [tokenName1] <type2> <to2> <amount2> [tokenName2] - Transfer ETH and tokens",
     "help - Show this list"]), st, [])

/-! ## Turn Loop (lines 824-856) -/

/-- One requested operation invocation in a resolver response. -/
structure LoopToolCall where
  opName : String
  args : String
  deriving DecidableEq, Repr

/-- One conversation message; `toolCalls` is the `tool_calls` array of an
agent message (empty for plain answers and tool results). -/
structure LoopMsg where
  content : String
  toolCalls : List LoopToolCall
  deriving DecidableEq, Repr

/-- `shouldContinue` (lines 833-839): route to the tools node exactly when
the last message carries a non-empty `tool_calls` array.  (On an empty
message list the JS indexing would fault; the model answers `false`, a case
the loop never produces since the agent node always appends its response.) -/
def shouldContinue (messages : List LoopMsg) : Bool :=
  match messages.getLast? with
  | some m => !m.toolCalls.isEmpty
  | none => false

/-- Modelled from the spec: the graph driver executing the compiled
`workflow` (lines 842-856) is the langgraph runtime, which is not part of
this repository; per spec §4.5 it alternates the agent (Intent Resolver) node
and the tools node along the edges `__start__ → agent`, `tools → agent`, and
`agent → (shouldContinue ? tools : END)`, and aborts after an
implementation-defined maximum turn count, modelled by the `limit` fuel.
`resolver` is the Intent Resolver black box, `runTools` the tool-node
execution producing the result messages to append.  Returns the final
conversation and the number of resolver (agent-node) invocations made. -/
def runLoop (resolver : List LoopMsg → LoopMsg)
    (runTools : List LoopMsg → List LoopMsg) :
    Nat → List LoopMsg → List LoopMsg × Nat
  | 0, messages => (messages, 0)
  | limit + 1, messages =>
    let afterAgent := messages ++ [resolver messages]
    if shouldContinue afterAgent then
      let r := runLoop resolver runTools limit (afterAgent ++ runTools afterAgent)
      (r.1, r.2 + 1)
    else
      (afterAgent, 1)

/-! ## Derived notions used by the verified properties -/

/-- Well-formedness that the parser guarantees for every produced item: the
kind marker is `"ETH"`, or `"TOKEN"` with a token name attached. -/
def itemWf (it : TransferItem) : Prop :=
  it.type = "ETH" ∨ (it.type = "TOKEN" ∧ it.tokenName.isSome = true)

instance (it : TransferItem) : Decidable (itemWf it) := by
  unfold itemWf; infer_instance

/-- The `(item index, nonce)` pairs of the submissions in a trace, in trace
order. -/
def subNonces (tr : List ChainCall) : List (Nat × Nat) :=
  tr.filterMap (fun c =>
    match c with
    | ChainCall.batchSend i n => some (i, n)
    | _ => none)

/-- Did the submission call itself (not necessarily the receipt) succeed for
batch item `idx`? -/
def sendOkAt (o : Oracle) (idx : Nat) : Bool :=
  match o.send idx with
  | Except.ok _ => true
  | Except.error _ => false

/-- Number of fully successful items among positions `idx, ..., idx + j - 1`. -/
def countRange (o : Oracle) : Nat → Nat → Nat
  | _, 0 => 0
  | idx, j + 1 => (if succAt o idx then 1 else 0) + countRange o (idx + 1) j

/-- The `info` field the execution loop records for item `idx`: the receipt
hash on success, otherwise the caught error message. -/
def entryInfo (o : Oracle) (idx : Nat) : String :=
  match o.send idx with
  | Except.error e => e
  | Except.ok _ =>
    match o.receipt idx with
    | Except.error e => e
    | Except.ok none => "Transaction receipt is null or invalid"
    | Except.ok (some h) => h

/-- The Batch Execution Record the loop produces for a well-formed item list:
one entry per item, in order, positions starting at `idx`. -/
def expectedEntries (o : Oracle) : List TransferItem → Nat → List BatchEntry
  | [], _ => []
  | it :: rest, idx =>
    ⟨idx, it, succAt o idx, entryInfo o idx⟩ :: expectedEntries o rest (idx + 1)

/-- The chain-call trace the loop produces for a well-formed item list:
an attempted submission per item, a `wait` whenever the submission call
returned, and the nonce advancing only past fully successful items. -/
def expectedTrace (o : Oracle) : List TransferItem → Nat → Nat → List ChainCall
  | [], _, _ => []
  | _ :: rest, idx, nonce =>
    match o.send idx with
    | Except.error _ =>
      ChainCall.batchSend idx nonce :: expectedTrace o rest (idx + 1) nonce
    | Except.ok _ =>
      ChainCall.batchSend idx nonce :: ChainCall.batchWait idx ::
        expectedTrace o rest (idx + 1) (if succAt o idx then nonce + 1 else nonce)

/-- The submission pairs of `expectedTrace`, one per item. -/
def expectedSubs (o : Oracle) : Nat → Nat → Nat → List (Nat × Nat)
  | 0, _, _ => []
  | n + 1, idx, nonce =>
    (idx, nonce) :: expectedSubs o n (idx + 1) (if succAt o idx then nonce + 1 else nonce)

/-- Tokenization as the specification words it ("tokenize by whitespace"):
the fields are the maximal whitespace-free runs of the input.  Stated from
the spec's words for comparison with the source's `trim().split(" ")`. -/
def wsTokenizeAux : List Char → List Char → List String
  | [], [] => []
  | [], acc => [String.mk acc.reverse]
  | c :: cs, acc =>
    if c.isWhitespace then
      match acc with
      | [] => wsTokenizeAux cs []
      | _ => String.mk acc.reverse :: wsTokenizeAux cs []
    else wsTokenizeAux cs (c :: acc)

def wsTokenize (s : String) : List String :=
  wsTokenizeAux s.data []

/-- Whether a token stream, read by the claimed 3-or-4 token grammar, is
covered exactly by the given item list in order: each item consumes its kind
token (compared up to the uppercasing the parser applies), recipient and
amount, plus the trailing name for a `TOKEN` item, and the stream is
exhausted at the end. -/
def coversB : List String → List TransferItem → Bool
  | ts, [] => ts.isEmpty
  | k :: a :: b :: more, it :: rest =>
    if it.type = "TOKEN" then
      match more with
      | n :: more2 =>
        jsToUpper k == it.type && a == it.toAddr && b == it.amount &&
          it.tokenName == some n && coversB more2 rest
      | [] => false
    else
      jsToUpper k == it.type && a == it.toAddr && b == it.amount &&
        it.tokenName == none && coversB more rest
  | _, _ :: _ => false

/-! ## Shared concrete samples for witnesses and counterexamples -/

/-- A syntactically valid recipient address. -/
def addrA : String := "0xaaaaaaaaaaaaaaaaaaaaaaaaaaaaaaaaaaaaaaaa"

/-- A second syntactically valid recipient address. -/
def addrB : String := "0xbbbbbbbbbbbbbbbbbbbbbbbbbbbbbbbbbbbbbbbb"

/-- A third syntactically valid address, used as a token contract address. -/
def addrC : String := "0xcccccccccccccccccccccccccccccccccccccccc"

/-- An oracle on which every external call succeeds; the base nonce is 7. -/
def sampleOracleOk : Oracle where
  walletOf := fun _ => Except.ok addrA
  baseNonce := 7
  send := fun i => Except.ok s!"sub{i}"
  receipt := fun i => Except.ok (some s!"rcpt{i}")
  ethBalance := 10 ^ 18
  tokenBalance := fun _ => Except.ok 5
  sendSingle := Except.ok "txh"
  waitSingle := Except.ok ()
  signature := Except.ok "sig"
  blockNumber := Except.ok 1000
  logs := Except.ok ["l1", "l2"]
  gasPrice := some (10 ^ 9)
  deployed := Except.ok addrB
  price := Except.ok (some 3)

/-- An oracle on which batch item 0's submission throws (later items
succeed), and the single-operation RPC / signing / logs calls throw. -/
def sampleOracleFail : Oracle where
  walletOf := fun _ => Except.error "invalid private key"
  baseNonce := 7
  send := fun i => if i = 0 then Except.error "boom" else Except.ok s!"sub{i}"
  receipt := fun i => Except.ok (some s!"rcpt{i}")
  ethBalance := 10 ^ 18
  tokenBalance := fun _ => Except.error "revert"
  sendSingle := Except.error "rpcfail"
  waitSingle := Except.error "waitfail"
  signature := Except.error "sigfail"
  blockNumber := Except.ok 1000
  logs := Except.error "logfail"
  gasPrice := none
  deployed := Except.error "deployfail"
  price := Except.error "httpfail"

/-- A state with a connected wallet and an empty token registry. -/
def sampleStateW : AgentState := ⟨some addrA, []⟩

/-- A state with a connected wallet and one registered token `ATK`. -/
def sampleStateTok : AgentState := ⟨some addrA, [("ATK", addrC)]⟩

/-- A two-item all-native batch instruction over `addrA` and `addrB`. -/
def sampleBatch : String := "ETH " ++ addrA ++ " 0.5 ETH " ++ addrB ++ " 2"

/-! ## Structural lemmas about the parser -/

/-- A successful parse covers the token stream with the 3-or-4-token grammar
and produces only well-formed items. -/
theorem parseItems_ok (tm : List (String × String)) (parts : List String) (i : Nat) :
    ∀ items, parseItems tm parts i = Except.ok items →
      coversB parts items = true ∧ ∀ it ∈ items, itemWf it := by
  induction parts, i using parseItems.induct tm with
  | case1 _ =>
    intro items h
    rw [parseItems.eq_def] at h
    cases h
    simp [coversB]
  | case2 t i ty hty a b name more hreg =>
    intro items h
    have h1 : jsToUpper t = "TOKEN" := hty
    have h2 : jsTruthy (lookupMap tm name) = false := by simpa using hreg
    rw [parseItems.eq_def] at h
    simp [h1, h2] at h
  | case3 t i ty hty a b name more hreg haddr =>
    intro items h
    have h1 : jsToUpper t = "TOKEN" := hty
    have h2 : jsTruthy (lookupMap tm name) = true := by simpa using hreg
    have h3 : etherIsAddress a = false := by simpa using haddr
    rw [parseItems.eq_def] at h
    simp [h1, h2, h3] at h
  | case4 t i ty hty a b name more hreg haddr hamt =>
    intro items h
    have h1 : jsToUpper t = "TOKEN" := hty
    have h2 : jsTruthy (lookupMap tm name) = true := by simpa using hreg
    have h3 : etherIsAddress a = true := by simpa using haddr
    have h4 : amountOk (some b) = false := by simpa using hamt
    rw [parseItems.eq_def] at h
    simp [h1, h2, h3, h4] at h
  | case5 t i ty hty a b name more hreg haddr hamt e hrec _ =>
    intro items h
    have h1 : jsToUpper t = "TOKEN" := hty
    have h2 : jsTruthy (lookupMap tm name) = true := by simpa using hreg
    have h3 : etherIsAddress a = true := by simpa using haddr
    have h4 : amountOk (some b) = true := by simpa using hamt
    rw [parseItems.eq_def] at h
    simp [h1, h2, h3, h4, hrec] at h
  | case6 t i ty hty a b name more hreg haddr hamt items0 hrec ih =>
    intro items h
    have h1 : jsToUpper t = "TOKEN" := hty
    have h2 : jsTruthy (lookupMap tm name) = true := by simpa using hreg
    have h3 : etherIsAddress a = true := by simpa using haddr
    have h4 : amountOk (some b) = true := by simpa using hamt
    rw [parseItems.eq_def] at h
    simp only [h1, h2, h3, h4, hrec, if_true, Bool.true_eq_false, if_false,
      reduceIte] at h
    cases h
    obtain ⟨hcov, hwf⟩ := ih items0 hrec
    constructor
    · rw [coversB.eq_def]
      simp [h1, hcov]
    · intro it hit
      rcases List.mem_cons.mp hit with rfl | hmem
      · exact Or.inr ⟨rfl, rfl⟩
      · exact hwf it hmem
  | case7 t rest i ty hty hshape =>
    intro items h
    have h1 : jsToUpper t = "TOKEN" := hty
    rcases rest with _ | ⟨a, _ | ⟨b, _ | ⟨nm, more⟩⟩⟩
    · rw [parseItems.eq_def] at h; simp [h1] at h
    · rw [parseItems.eq_def] at h; simp [h1] at h
    · rw [parseItems.eq_def] at h; simp [h1] at h
    · exact absurd rfl (hshape a b nm more)
  | case8 t rest i ty hty heth =>
    intro items h
    have h1 : jsToUpper t ≠ "TOKEN" := hty
    have h2 : jsToUpper t ≠ "ETH" := heth
    rcases rest with _ | ⟨a, _ | ⟨b, more⟩⟩ <;>
      · rw [parseItems.eq_def] at h; simp [h1, h2] at h
  | case9 t i ty hty heth a b more haddr =>
    intro items h
    have h1 : jsToUpper t ≠ "TOKEN" := hty
    have h2 : jsToUpper t = "ETH" := not_not.mp heth
    have h3 : etherIsAddress a = false := by simpa using haddr
    rw [parseItems.eq_def] at h
    simp [h1, h2, h3] at h
  | case10 t i ty hty heth a b more haddr hamt =>
    intro items h
    have h1 : jsToUpper t ≠ "TOKEN" := hty
    have h2 : jsToUpper t = "ETH" := not_not.mp heth
    have h3 : etherIsAddress a = true := by simpa using haddr
    have h4 : amountOk (some b) = false := by simpa using hamt
    rw [parseItems.eq_def] at h
    simp [h1, h2, h3, h4] at h
  | case11 t i ty hty heth a b more haddr hamt e hrec _ =>
    intro items h
    have h1 : jsToUpper t ≠ "TOKEN" := hty
    have h2 : jsToUpper t = "ETH" := not_not.mp heth
    have h3 : etherIsAddress a = true := by simpa using haddr
    have h4 : amountOk (some b) = true := by simpa using hamt
    rw [parseItems.eq_def] at h
    simp [h1, h2, h3, h4, hrec] at h
  | case12 t i ty hty heth a b more haddr hamt items0 hrec ih =>
    intro items h
    have h1 : jsToUpper t ≠ "TOKEN" := hty
    have h2 : jsToUpper t = "ETH" := not_not.mp heth
    have h3 : etherIsAddress a = true := by simpa using haddr
    have h4 : amountOk (some b) = true := by simpa using hamt
    rw [parseItems.eq_def] at h
    simp only [h1, h2, h3, h4, hrec, if_true, Bool.true_eq_false, if_false,
      reduceIte] at h
    cases h
    obtain ⟨hcov, hwf⟩ := ih items0 hrec
    constructor
    · rw [coversB.eq_def]
      simp [h2, hcov]
    · intro it hit
      rcases List.mem_cons.mp hit with rfl | hmem
      · exact Or.inl rfl
      · exact hwf it hmem
  | case13 t rest i ty hty heth haddr hshape =>
    intro items h
    have h1 : jsToUpper t ≠ "TOKEN" := hty
    have h2 : jsToUpper t = "ETH" := not_not.mp heth
    rcases rest with _ | ⟨a, _ | ⟨b, more⟩⟩
    · rw [parseItems.eq_def] at h
      simp only [h1, h2] at h
      split at h <;> simp at h
    · rw [parseItems.eq_def] at h
      simp only [h1, h2] at h
      split at h <;> simp at h
    · exact absurd rfl (hshape a b more)
  | case14 t rest i ty hty heth haddr hshape =>
    intro items h
    have h1 : jsToUpper t ≠ "TOKEN" := hty
    have h2 : jsToUpper t = "ETH" := not_not.mp heth
    rcases rest with _ | ⟨a, _ | ⟨b, more⟩⟩
    · rw [parseItems.eq_def] at h
      simp only [h1, h2] at h
      split at h <;> simp at h
    · rw [parseItems.eq_def] at h
      simp only [h1, h2] at h
      split at h <;> simp at h
    · exact absurd rfl (hshape a b more)

/-- Coverage pins the stream length to the summed item widths. -/
theorem coversB_length (ts : List String) (items : List TransferItem)
    (h : coversB ts items = true) : ts.length = sumWidths items := by
  induction ts, items using coversB.induct with
  | case1 ts =>
    rw [coversB.eq_def] at h
    simp only [List.isEmpty_iff] at h
    simp [h, sumWidths]
  | case2 k a b it rest htok n more2 ih =>
    rw [coversB.eq_def] at h
    simp [htok] at h
    have hlen := ih h.2
    simp only [sumWidths, List.map_cons, List.sum_cons, itemWidth, htok,
      if_true, List.length_cons, reduceIte] at hlen ⊢
    omega
  | case3 k a b it rest htok =>
    rw [coversB.eq_def] at h
    simp [htok] at h
  | case4 k a b more it rest htok ih =>
    rw [coversB.eq_def] at h
    simp [htok] at h
    have hlen := ih h.2
    simp only [sumWidths, List.map_cons, List.sum_cons, itemWidth, htok,
      if_false, List.length_cons, reduceIte] at hlen ⊢
    omega
  | case5 ts hd tl hshape =>
    rcases ts with _ | ⟨a, _ | ⟨b, _ | ⟨c, more⟩⟩⟩
    · rw [coversB.eq_def] at h; simp at h
    · rw [coversB.eq_def] at h; simp at h
    · rw [coversB.eq_def] at h; simp at h
    · exact absurd rfl (hshape a b c more)

/-! ## Structural lemmas about batch execution -/

/-- On a well-formed item list the execution loop produces exactly the
expected record and trace. -/
theorem execBatch_eq (o : Oracle) : ∀ (items : List TransferItem) (idx nonce : Nat),
    (∀ it ∈ items, itemWf it) →
    execBatch o items idx nonce =
      (expectedEntries o items idx, expectedTrace o items idx nonce) := by
  intro items idx nonce
  induction items, idx, nonce using execBatch.induct o with
  | case1 _ _ => intro _; rfl
  | case2 it rest idx nonce hit e hs es tr heq ih =>
    intro hwf
    have hrest : ∀ x ∈ rest, itemWf x := fun x hx => hwf x (List.mem_cons_of_mem _ hx)
    rw [execBatch.eq_def]
    simp [hit, hs, ih hrest, expectedEntries, expectedTrace, entryInfo, succAt]
  | case3 it rest idx nonce hit a hs e hr es tr heq ih =>
    intro hwf
    have hrest : ∀ x ∈ rest, itemWf x := fun x hx => hwf x (List.mem_cons_of_mem _ hx)
    rw [execBatch.eq_def]
    simp [hit, hs, hr, ih hrest, expectedEntries, expectedTrace, entryInfo, succAt]
  | case4 it rest idx nonce hit a hs hr es tr heq ih =>
    intro hwf
    have hrest : ∀ x ∈ rest, itemWf x := fun x hx => hwf x (List.mem_cons_of_mem _ hx)
    rw [execBatch.eq_def]
    simp [hit, hs, hr, ih hrest, expectedEntries, expectedTrace, entryInfo, succAt]
  | case5 it rest idx nonce hit a hs hh hr es tr heq ih =>
    intro hwf
    have hrest : ∀ x ∈ rest, itemWf x := fun x hx => hwf x (List.mem_cons_of_mem _ hx)
    rw [execBatch.eq_def]
    simp [hit, hs, hr, ih hrest, expectedEntries, expectedTrace, entryInfo, succAt]
  | case6 it rest idx nonce hit ih =>
    intro hwf
    exact absurd (hwf it (List.mem_cons_self it rest)) hit

theorem expectedEntries_length (o : Oracle) (items : List TransferItem) (idx : Nat) :
    (expectedEntries o items idx).length = items.length := by
  induction items generalizing idx with
  | nil => rfl
  | cons it rest ih => simp [expectedEntries, ih]

theorem expectedEntries_get (o : Oracle) (items : List TransferItem) (idx j : Nat) :
    (expectedEntries o items idx)[j]? =
      (items[j]?).map
        (fun it => ⟨idx + j, it, succAt o (idx + j), entryInfo o (idx + j)⟩) := by
  induction items generalizing idx j with
  | nil => simp [expectedEntries]
  | cons it rest ih =>
    cases j with
    | zero => simp [expectedEntries]
    | succ j =>
      have h1 : idx + (j + 1) = (idx + 1) + j := by omega
      simp only [expectedEntries, List.getElem?_cons_succ, h1]
      exact ih (idx + 1) j

theorem subNonces_expectedTrace (o : Oracle) (items : List TransferItem)
    (idx nonce : Nat) :
    subNonces (expectedTrace o items idx nonce) = expectedSubs o items.length idx nonce := by
  induction items generalizing idx nonce with
  | nil => rfl
  | cons it rest ih =>
    cases hs : o.send idx with
    | error e =>
      have hsucc : succAt o idx = false := by simp [succAt, hs]
      simp only [expectedTrace, hs, subNonces, expectedSubs, hsucc,
        List.filterMap_cons, List.length_cons, if_false, Bool.false_eq_true,
        reduceIte]
      simpa [subNonces] using ih (idx + 1) nonce
    | ok a =>
      simp only [expectedTrace, hs, subNonces, expectedSubs,
        List.filterMap_cons, List.length_cons]
      simpa [subNonces] using ih (idx + 1) (if succAt o idx then nonce + 1 else nonce)

theorem expectedSubs_length (o : Oracle) (n : Nat) : ∀ (idx nonce : Nat),
    (expectedSubs o n idx nonce).length = n := by
  induction n with
  | zero => intro idx nonce; rfl
  | succ n ih => intro idx nonce; simp [expectedSubs, ih]

theorem expectedSubs_get (o : Oracle) (n : Nat) : ∀ (idx nonce j : Nat), j < n →
    (expectedSubs o n idx nonce)[j]? = some (idx + j, nonce + countRange o idx j) := by
  induction n with
  | zero => intro idx nonce j h; omega
  | succ n ih =>
    intro idx nonce j hj
    cases j with
    | zero => simp [expectedSubs, countRange]
    | succ j =>
      have hj' : j < n := by omega
      rw [expectedSubs]
      simp only [List.getElem?_cons_succ]
      rw [ih (idx + 1) (if succAt o idx then nonce + 1 else nonce) j hj']
      simp only [countRange, Option.some.injEq, Prod.mk.injEq]
      cases hsucc : succAt o idx <;> simp [hsucc] <;> omega

theorem getNonce_not_mem_expectedTrace (o : Oracle) (items : List TransferItem) :
    ∀ (idx nonce : Nat), ChainCall.getNonce ∉ expectedTrace o items idx nonce := by
  induction items with
  | nil => intro idx nonce; simp [expectedTrace]
  | cons it rest ih =>
    intro idx nonce
    cases hs : o.send idx <;> simp [expectedTrace, hs, ih]

theorem expectedTrace_cons (o : Oracle) (it : TransferItem) (rest : List TransferItem)
    (idx nonce : Nat) :
    ∃ tail, expectedTrace o (it :: rest) idx nonce =
      ChainCall.batchSend idx nonce :: tail := by
  cases hs : o.send idx with
  | error e =>
    refine ⟨expectedTrace o rest (idx + 1) nonce, ?_⟩
    simp [expectedTrace, hs]
  | ok a =>
    refine ⟨ChainCall.batchWait idx ::
      expectedTrace o rest (idx + 1) (if succAt o idx then nonce + 1 else nonce), ?_⟩
    simp [expectedTrace, hs]

/-- Whenever item `idx + j`'s submission call returned and a further item
follows, its `wait()` appears in the trace before the next item's
submission. -/
theorem expectedTrace_wait_before_send (o : Oracle) :
    ∀ (items : List TransferItem) (idx nonce j : Nat), j + 1 < items.length →
      sendOkAt o (idx + j) = true →
      ∃ n, List.Sublist
        [ChainCall.batchWait (idx + j), ChainCall.batchSend (idx + j + 1) n]
        (expectedTrace o items idx nonce) := by
  intro items
  induction items with
  | nil => intro idx nonce j h hs; simp at h
  | cons it rest ih =>
    intro idx nonce j hj hs
    cases j with
    | zero =>
      rcases rest with _ | ⟨r1, rest'⟩
      · simp at hj
      · simp only [Nat.add_zero] at hs ⊢
        rcases hok : o.send idx with e | a
        · rw [sendOkAt, hok] at hs; simp at hs
        · obtain ⟨tail, htail⟩ :=
            expectedTrace_cons o r1 rest' (idx + 1) (if succAt o idx then nonce + 1 else nonce)
          refine ⟨if succAt o idx then nonce + 1 else nonce, ?_⟩
          rw [expectedTrace, hok, htail]
          exact List.Sublist.cons _ (List.Sublist.cons₂ _ (List.Sublist.cons₂ _
            (List.nil_sublist tail)))
    | succ j =>
      have hj' : j + 1 < rest.length := by simpa using hj
      have harith : idx + (j + 1) = (idx + 1) + j := by omega
      rw [harith] at hs ⊢
      rcases hok : o.send idx with e | a
      · obtain ⟨n, hsub⟩ := ih (idx + 1) nonce j hj' hs
        refine ⟨n, ?_⟩
        rw [expectedTrace, hok]
        exact List.Sublist.cons _ hsub
      · obtain ⟨n, hsub⟩ :=
          ih (idx + 1) (if succAt o idx then nonce + 1 else nonce) j hj' hs
        refine ⟨n, ?_⟩
        rw [expectedTrace, hok]
        exact List.Sublist.cons _ (List.Sublist.cons _ hsub)

/-! ## Auxiliary lemmas for the claims -/

/-- A successful batch parse means the token stream passed the format check
and the validating walk from position 0. -/
theorem parseTransfers_ok (tm : List (String × String)) (t : String)
    (items : List TransferItem) (hp : parseTransfers tm t = Except.ok items) :
    parseItems tm (splitChar ' ' (jsTrim t)) 0 = Except.ok items := by
  by_cases hlen : (splitChar ' ' (jsTrim t)).length < 3
  · rw [parseTransfers.eq_def] at hp
    simp [hlen] at hp
  · rw [parseTransfers.eq_def] at hp
    simpa [hlen] using hp

theorem subNonces_getNonce_cons (tr : List ChainCall) :
    subNonces (ChainCall.getNonce :: tr) = subNonces tr := by
  simp [subNonces, List.filterMap_cons]

/-- The trace of a valid batch call is the nonce read followed by the
execution trace. -/
theorem batch_trace_eq (st : AgentState) (o : Oracle) (w transfers : String)
    (items : List TransferItem) (hw : st.wallet = some w)
    (hp : parseTransfers st.tokenMap transfers = Except.ok items) :
    (batchMixedTransferCall st o transfers).2.2 =
      ChainCall.getNonce :: expectedTrace o items 0 o.baseNonce := by
  have hpi := parseTransfers_ok _ _ _ hp
  have hwf := (parseItems_ok st.tokenMap _ 0 items hpi).2
  have hexec := execBatch_eq o items 0 o.baseNonce hwf
  simp [batchMixedTransferCall, hw, hp, hexec]

theorem lookup_jsInsert_self (m : List (String × String)) (k v : String) :
    lookupMap (jsInsert m k v) k = some v := by
  induction m with
  | nil => simp [jsInsert, lookupMap]
  | cons e rest ih =>
    by_cases hk : e.1 = k <;> simp [jsInsert, lookupMap, hk, ih]

theorem lookup_jsInsert_other (m : List (String × String)) (k v k' : String)
    (h : k' ≠ k) : lookupMap (jsInsert m k v) k' = lookupMap m k' := by
  induction m with
  | nil =>
    have hk : ¬ (k = k') := fun hh => h hh.symm
    simp [jsInsert, lookupMap, hk]
  | cons e rest ih =>
    by_cases hk : e.1 = k
    · subst hk
      have hk' : ¬ (e.1 = k') := fun hh => h hh.symm
      simp [jsInsert, lookupMap, hk']
    · simp [jsInsert, lookupMap, hk, ih]

theorem shouldContinue_concat (ms : List LoopMsg) (m : LoopMsg) :
    shouldContinue (ms ++ [m]) = !m.toolCalls.isEmpty := by
  simp [shouldContinue, List.getLast?_append_cons]

/-! ## The verified properties (C1-C10) -/

/-- C2: for every batch input that fails upfront static validation (with a
session present), the batch tool returns the validation-failure message and
performs zero chain calls: no nonce read and no submission appear in the
trace, and the agent state is unchanged. -/
theorem batch_validation_all_or_nothing (st : AgentState) (o : Oracle)
    (w transfers e : String) (hw : st.wallet = some w)
    (hp : parseTransfers st.tokenMap transfers = Except.error e) :
    batchMixedTransferCall st o transfers = (Except.ok e, st, []) := by
  simp [batchMixedTransferCall, hw, hp]

theorem batch_validation_all_or_nothing_witness :
    batchMixedTransferCall sampleStateW sampleOracleOk "ETH bad 1" =
      (Except.ok "Invalid address: bad", sampleStateW, []) :=
  batch_validation_all_or_nothing sampleStateW sampleOracleOk addrA "ETH bad 1"
    "Invalid address: bad" rfl rfl

/-- C3: for every valid batch of N items, the Batch Execution Record has
exactly N entries, one per item, in input order: entry j carries item j, its
position, its success flag, and the receipt hash or error message; the
reported result renders exactly this record. -/
theorem batch_order_preservation (st : AgentState) (o : Oracle)
    (w transfers : String) (items : List TransferItem) (hw : st.wallet = some w)
    (hp : parseTransfers st.tokenMap transfers = Except.ok items) :
    (batchMixedTransferCall st o transfers).1 =
      Except.ok (batchSummary (execBatch o items 0 o.baseNonce).1) ∧
    (execBatch o items 0 o.baseNonce).1.length = items.length ∧
    ∀ j, j < items.length →
      (execBatch o items 0 o.baseNonce).1[j]? =
        (items[j]?).map (fun it => ⟨j, it, succAt o j, entryInfo o j⟩) := by
  have hpi := parseTransfers_ok _ _ _ hp
  have hwf := (parseItems_ok st.tokenMap _ 0 items hpi).2
  have hexec := execBatch_eq o items 0 o.baseNonce hwf
  refine ⟨?_, ?_, ?_⟩
  · simp [batchMixedTransferCall, hw, hp, hexec]
  · rw [hexec]
    exact expectedEntries_length o items 0
  · intro j hj
    rw [hexec]
    have := expectedEntries_get o items 0 j
    simpa using this

theorem batch_order_preservation_witness :
    (execBatch sampleOracleOk
        [⟨"ETH", addrA, "0.5", none⟩, ⟨"ETH", addrB, "2", none⟩] 0
        sampleOracleOk.baseNonce).1.length = 2 :=
  (batch_order_preservation sampleStateW sampleOracleOk addrA sampleBatch
    [⟨"ETH", addrA, "0.5", none⟩, ⟨"ETH", addrB, "2", none⟩] rfl rfl).2.1

/-- C1 is false as stated: the source increments the nonce only at the end of
a successful iteration, so after item 0's submission throws (base nonce 7),
item 1 is submitted with the reused nonce 7, not with 7 + 1. -/
theorem batch_nonce_claim_cex :
    (batchMixedTransferCall sampleStateW sampleOracleFail sampleBatch).2.2 =
      [ChainCall.getNonce, ChainCall.batchSend 0 7, ChainCall.batchSend 1 7,
        ChainCall.batchWait 1] ∧
    ChainCall.batchSend 1 7 ∈
      (batchMixedTransferCall sampleStateW sampleOracleFail sampleBatch).2.2 ∧
    ChainCall.batchSend 1 (7 + 1) ∉
      (batchMixedTransferCall sampleStateW sampleOracleFail sampleBatch).2.2 := by
  decide

/-- C1 (amended): for every valid batch the on-chain nonce is read exactly
once, before any submission, and item j is submitted with nonce
`baseNonce + (number of fully successful items before j)` — the nonce does
not advance past failed items, so after a failure the next item reuses the
failed item's nonce. -/
theorem batch_nonce_assignment (st : AgentState) (o : Oracle)
    (w transfers : String) (items : List TransferItem) (hw : st.wallet = some w)
    (hp : parseTransfers st.tokenMap transfers = Except.ok items) :
    ((batchMixedTransferCall st o transfers).2.2).head? = some ChainCall.getNonce ∧
    ChainCall.getNonce ∉ ((batchMixedTransferCall st o transfers).2.2).tail ∧
    (subNonces ((batchMixedTransferCall st o transfers).2.2)).length = items.length ∧
    ∀ j, j < items.length →
      (subNonces ((batchMixedTransferCall st o transfers).2.2))[j]? =
        some (j, o.baseNonce + countRange o 0 j) := by
  have htr := batch_trace_eq st o w transfers items hw hp
  rw [htr]
  refine ⟨rfl, ?_, ?_, ?_⟩
  · simpa using getNonce_not_mem_expectedTrace o items 0 o.baseNonce
  · rw [subNonces_getNonce_cons, subNonces_expectedTrace]
    exact expectedSubs_length o items.length 0 o.baseNonce
  · intro j hj
    rw [subNonces_getNonce_cons, subNonces_expectedTrace]
    have := expectedSubs_get o items.length 0 o.baseNonce j hj
    simpa using this

theorem batch_nonce_assignment_witness :
    ((batchMixedTransferCall sampleStateW sampleOracleOk sampleBatch).2.2).head? =
      some ChainCall.getNonce :=
  (batch_nonce_assignment sampleStateW sampleOracleOk addrA sampleBatch
    [⟨"ETH", addrA, "0.5", none⟩, ⟨"ETH", addrB, "2", none⟩] rfl rfl).1

/-- C7 is false as stated: in a valid 2-item batch where everything succeeds,
item 0's `wait()` (position 2 of the trace) occurs before item 1's
submission (position 3) — the executor does await the prior item's receipt
before the next submission. -/
theorem batch_wait_before_next_send_cex :
    (batchMixedTransferCall sampleStateW sampleOracleOk sampleBatch).2.2 =
      [ChainCall.getNonce, ChainCall.batchSend 0 7, ChainCall.batchWait 0,
        ChainCall.batchSend 1 8, ChainCall.batchWait 1] ∧
    ((batchMixedTransferCall sampleStateW sampleOracleOk sampleBatch).2.2)[2]? =
      some (ChainCall.batchWait 0) ∧
    ((batchMixedTransferCall sampleStateW sampleOracleOk sampleBatch).2.2)[3]? =
      some (ChainCall.batchSend 1 8) := by
  decide

/-- C7 (amended): batch execution is confirmation-sequential: whenever item
j's submission call returned and item j+1 exists, item j's `wait()` appears
in the trace before item j+1's submission. -/
theorem batch_awaits_receipt_between_items (st : AgentState) (o : Oracle)
    (w transfers : String) (items : List TransferItem) (j : Nat)
    (hw : st.wallet = some w)
    (hp : parseTransfers st.tokenMap transfers = Except.ok items)
    (hj : j + 1 < items.length) (hs : sendOkAt o j = true) :
    ∃ n, List.Sublist [ChainCall.batchWait j, ChainCall.batchSend (j + 1) n]
      ((batchMixedTransferCall st o transfers).2.2) := by
  have htr := batch_trace_eq st o w transfers items hw hp
  rw [htr]
  have hs' : sendOkAt o (0 + j) = true := by simpa using hs
  obtain ⟨n, hsub⟩ :=
    expectedTrace_wait_before_send o items 0 o.baseNonce j hj hs'
  rw [Nat.zero_add] at hsub
  exact ⟨n, List.Sublist.cons _ hsub⟩

theorem batch_awaits_receipt_between_items_witness :
    ∃ n, List.Sublist [ChainCall.batchWait 0, ChainCall.batchSend 1 n]
      ((batchMixedTransferCall sampleStateW sampleOracleOk sampleBatch).2.2) :=
  batch_awaits_receipt_between_items sampleStateW sampleOracleOk addrA sampleBatch
    [⟨"ETH", addrA, "0.5", none⟩, ⟨"ETH", addrB, "2", none⟩] 0 rfl rfl
    (by decide) (by decide)

/-- C8 is false as stated: the parser splits on single space characters
(`trim().split(" ")`), not on whitespace runs.  Two inputs with the identical
whitespace token stream `["ETH", addrA, "1"]` get different outcomes: the
single-space form parses, while the double-space form yields an empty token
in recipient position and is rejected. -/
theorem batch_whitespace_tokenize_cex :
    wsTokenize ("ETH  " ++ addrA ++ " 1") = wsTokenize ("ETH " ++ addrA ++ " 1") ∧
    parseTransfers [] ("ETH " ++ addrA ++ " 1") =
      Except.ok [⟨"ETH", addrA, "1", none⟩] ∧
    parseTransfers [] ("ETH  " ++ addrA ++ " 1") =
      Except.error "Invalid address: " :=
  ⟨by decide, rfl, rfl⟩

/-- C8 (amended): the parser tokenizes by splitting on single space
characters after trimming; it then walks the token stream left to right
consuming exactly 3 tokens per ETH item and exactly 4 per TOKEN item, and a
successful parse covers the whole token stream in order. -/
theorem batch_parse_consumption (tm : List (String × String))
    (transfers : String) (items : List TransferItem)
    (hp : parseTransfers tm transfers = Except.ok items) :
    coversB (splitChar ' ' (jsTrim transfers)) items = true ∧
    (splitChar ' ' (jsTrim transfers)).length = sumWidths items := by
  have hpi := parseTransfers_ok _ _ _ hp
  have h := (parseItems_ok tm _ 0 items hpi).1
  exact ⟨h, coversB_length _ _ h⟩

theorem batch_parse_consumption_witness :
    coversB (splitChar ' ' (jsTrim ("TOKEN " ++ addrA ++ " 10 ATK eth " ++ addrB ++ " 0.01")))
      [⟨"TOKEN", addrA, "10", some "ATK"⟩, ⟨"ETH", addrB, "0.01", none⟩] = true ∧
    (splitChar ' ' (jsTrim ("TOKEN " ++ addrA ++ " 10 ATK eth " ++ addrB ++ " 0.01"))).length =
      sumWidths [⟨"TOKEN", addrA, "10", some "ATK"⟩, ⟨"ETH", addrB, "0.01", none⟩] :=
  batch_parse_consumption [("ATK", addrC)]
    ("TOKEN " ++ addrA ++ " 10 ATK eth " ++ addrB ++ " 0.01")
    [⟨"TOKEN", addrA, "10", some "ATK"⟩, ⟨"ETH", addrB, "0.01", none⟩] rfl

/-- C4 is false as stated: the native-transfer executor catches an RPC
failure and re-throws it as a new wrapped error, so an exception (an `error`
result), not a failure result string, crosses the executor boundary. -/
theorem failure_containment_cex :
    (transferTokensCall sampleStateW sampleOracleFail addrB "1").1 =
      Except.error "Failed to transfer tokens: rpcfail" := rfl

/-- C4 (amended): every executor catches underlying RPC/signing failures and
re-surfaces them with a descriptive message, but the set-wallet,
native-transfer and message-signing executors re-surface them by throwing a
new wrapped error that propagates past the executor boundary; the
transaction-history executor's log failure and the batch tool (at every
input) return plain result strings instead. -/
theorem failure_containment_amended (st : AgentState) (o : Oracle)
    (w toA amt msg pk t : String) (count : Nat) (hw : st.wallet = some w) :
    (∀ e, o.sendSingle = Except.error e →
      (transferTokensCall st o toA amt).1 =
        Except.error s!"Failed to transfer tokens: {e}") ∧
    (∀ e, o.signature = Except.error e →
      (signMessageCall st o msg).1 = Except.error s!"Failed to sign message: {e}") ∧
    (∀ e, o.walletOf pk = Except.error e →
      (setWalletCall st o pk).1 = Except.error s!"Failed to set wallet: {e}") ∧
    (∀ bn e, o.blockNumber = Except.ok bn → o.logs = Except.error e →
      (getTransactionHistoryCall st o count).1 =
        Except.ok s!"Failed to fetch transaction history: {e}") ∧
    (∃ s, (batchMixedTransferCall st o t).1 = Except.ok s) := by
  refine ⟨?_, ?_, ?_, ?_, ?_⟩
  · intro e he
    simp [transferTokensCall, hw, he]
  · intro e he
    simp [signMessageCall, hw, he]
  · intro e he
    simp [setWalletCall, he]
  · intro bn e hbn he
    simp [getTransactionHistoryCall, hw, hbn, he]
  · rw [batchMixedTransferCall.eq_def, hw]
    cases hp : parseTransfers st.tokenMap t with
    | error e => exact ⟨e, by simp [hp]⟩
    | ok items =>
      exact ⟨batchSummary (execBatch o items 0 o.baseNonce).1, by simp [hp]⟩

theorem failure_containment_amended_witness :
    (transferTokensCall sampleStateW sampleOracleFail addrB "1").1 =
      Except.error "Failed to transfer tokens: rpcfail" ∧
    (signMessageCall sampleStateW sampleOracleFail "hello").1 =
      Except.error "Failed to sign message: sigfail" ∧
    (getTransactionHistoryCall sampleStateW sampleOracleFail 5).1 =
      Except.ok "Failed to fetch transaction history: logfail" ∧
    ∃ s, (batchMixedTransferCall sampleStateW sampleOracleFail sampleBatch).1 =
      Except.ok s := by
  obtain h := failure_containment_amended sampleStateW sampleOracleFail addrA addrB
    "1" "hello" "pk" sampleBatch 5 rfl
  exact ⟨h.1 "rpcfail" rfl, h.2.1 "sigfail" rfl,
    h.2.2.2.1 1000 "logfail" rfl rfl, h.2.2.2.2⟩

/-- C5: with no credential in the session store, each signing-required
operation — balance query, native transfer, message signing, transaction
history, token creation, batch transfer — returns its no-session text,
leaves the state unchanged, and performs zero chain calls. -/
theorem session_gating (st : AgentState) (o : Oracle)
    (toA amt msg nm sym sup transfers : String) (count : Nat)
    (hw : st.wallet = none) :
    getBalanceCall st o = (Except.ok "No wallet set.", st, []) ∧
    transferTokensCall st o toA amt = (Except.ok "No wallet set.", st, []) ∧
    signMessageCall st o msg = (Except.ok "No wallet set.", st, []) ∧
    getTransactionHistoryCall st o count = (Except.ok "No wallet set.", st, []) ∧
    createTokenCall st o nm sym sup =
      (Except.ok "No wallet set. Please set a wallet first.", st, []) ∧
    batchMixedTransferCall st o transfers =
      (Except.ok "No wallet set. Please set a wallet with \x27setWallet <privateKey>\x27 first.",
        st, []) := by
  refine ⟨?_, ?_, ?_, ?_, ?_, ?_⟩ <;>
    simp [getBalanceCall, transferTokensCall, signMessageCall,
      getTransactionHistoryCall, createTokenCall, batchMixedTransferCall, hw]

theorem session_gating_witness :
    getBalanceCall ⟨none, []⟩ sampleOracleOk = (Except.ok "No wallet set.", ⟨none, []⟩, []) ∧
    batchMixedTransferCall ⟨none, []⟩ sampleOracleOk sampleBatch =
      (Except.ok "No wallet set. Please set a wallet with \x27setWallet <privateKey>\x27 first.",
        ⟨none, []⟩, []) := by
  obtain h := session_gating ⟨none, []⟩ sampleOracleOk addrA "1" "m" "n" "s" "10"
    sampleBatch 5 rfl
  exact ⟨h.1, h.2.2.2.2.2⟩

/-- C6: the Turn Loop makes at most `limit` resolver invocations for every
resolver, tool behaviour and starting conversation — and exactly `limit` of
them when the resolver requests a further operation on every step, so the
agent/tools cycle cannot iterate unboundedly. -/
theorem turn_loop_termination_bound (resolver : List LoopMsg → LoopMsg)
    (runTools : List LoopMsg → List LoopMsg) (limit : Nat)
    (messages : List LoopMsg) :
    (runLoop resolver runTools limit messages).2 ≤ limit ∧
    ((∀ ms, (resolver ms).toolCalls ≠ []) →
      (runLoop resolver runTools limit messages).2 = limit) := by
  induction limit generalizing messages with
  | zero => exact ⟨Nat.le_refl 0, fun _ => rfl⟩
  | succ n ih =>
    rw [runLoop]
    by_cases hc : shouldContinue (messages ++ [resolver messages]) = true
    · simp only [hc, if_true, reduceIte]
      refine ⟨?_, ?_⟩
      · have := (ih ((messages ++ [resolver messages]) ++
          runTools (messages ++ [resolver messages]))).1
        omega
      · intro hall
        have := (ih ((messages ++ [resolver messages]) ++
          runTools (messages ++ [resolver messages]))).2 hall
        omega
    · simp only [Bool.not_eq_true] at hc
      simp only [hc, Bool.false_eq_true, if_false, reduceIte]
      refine ⟨by omega, ?_⟩
      intro hall
      rw [shouldContinue_concat] at hc
      have := hall messages
      simp [List.isEmpty_iff] at hc
      exact absurd hc this

theorem turn_loop_termination_bound_witness :
    (runLoop (fun _ => ⟨"", [⟨"help", ""⟩]⟩) (fun _ => []) 10 []).2 = 10 :=
  (turn_loop_termination_bound (fun _ => ⟨"", [⟨"help", ""⟩]⟩) (fun _ => []) 10 []).2
    (fun _ => List.cons_ne_nil _ _)

/-- C9: from any session-store state, clearing the credential twice succeeds
both times with the same response, is idempotent (the second call changes
nothing), leaves no credential set, makes no chain call, and a subsequent
identity query reports no wallet. -/
theorem session_clear_idempotent (st : AgentState) :
    (disconnectWalletCall st).1 = Except.ok "Wallet disconnected successfully" ∧
    (disconnectWalletCall (disconnectWalletCall st).2.1).1 =
      Except.ok "Wallet disconnected successfully" ∧
    (disconnectWalletCall st).2.1.wallet = none ∧
    (disconnectWalletCall (disconnectWalletCall st).2.1).2.1 =
      (disconnectWalletCall st).2.1 ∧
    (disconnectWalletCall st).2.2 = [] ∧
    (disconnectWalletCall (disconnectWalletCall st).2.1).2.2 = [] ∧
    (getWalletAddressCall (disconnectWalletCall (disconnectWalletCall st).2.1).2.1).1 =
      Except.ok "No wallet set. Please provide a private key." := by
  cases st
  simp [disconnectWalletCall, getWalletAddressCall]

/-- C10: the Named Asset Registry is keyed by the created token's symbol (not
its name): a successful `createToken` updates the map at the symbol key,
overwriting any previous binding (last write wins) and leaving all other
keys unchanged; no key is ever removed; and every other operation leaves the
registry exactly as it was. -/
theorem token_registry_symbol_keyed (st : AgentState) (o : Oracle)
    (w nm symbol supply addr : String) (n : Int)
    (hw : st.wallet = some w) (hn : jsParseInt supply = some n) (hpos : 0 < n)
    (hd : o.deployed = Except.ok addr) :
    ((createTokenCall st o nm symbol supply).2.1.tokenMap =
      jsInsert st.tokenMap symbol addr) ∧
    lookupMap (jsInsert st.tokenMap symbol addr) symbol = some addr ∧
    (∀ k, k ≠ symbol →
      lookupMap (jsInsert st.tokenMap symbol addr) k = lookupMap st.tokenMap k) ∧
    (∀ k v, lookupMap st.tokenMap k = some v →
      (lookupMap (jsInsert st.tokenMap symbol addr) k).isSome = true) ∧
    (∀ pk, (setWalletCall st o pk).2.1.tokenMap = st.tokenMap) ∧
    ((disconnectWalletCall st).2.1.tokenMap = st.tokenMap) ∧
    ((getWalletAddressCall st).2.1.tokenMap = st.tokenMap) ∧
    ((getBalanceCall st o).2.1.tokenMap = st.tokenMap) ∧
    (∀ a amt, (transferTokensCall st o a amt).2.1.tokenMap = st.tokenMap) ∧
    (∀ m, (signMessageCall st o m).2.1.tokenMap = st.tokenMap) ∧
    (∀ c, (getTransactionHistoryCall st o c).2.1.tokenMap = st.tokenMap) ∧
    ((getGasPriceCall st o).2.1.tokenMap = st.tokenMap) ∧
    (∀ tk, (getTokenPriceCall st o tk).2.1.tokenMap = st.tokenMap) ∧
    ((getTrendingTokensCall st).2.1.tokenMap = st.tokenMap) ∧
    (∀ a, (getFaucetTokensCall st a).2.1.tokenMap = st.tokenMap) ∧
    (∀ t, (batchMixedTransferCall st o t).2.1.tokenMap = st.tokenMap) ∧
    ((helpCall st).2.1.tokenMap = st.tokenMap) := by
  have hn0 : ¬ (n ≤ 0) := by omega
  refine ⟨?_, lookup_jsInsert_self _ _ _, ?_, ?_, ?_, rfl, ?_, ?_, ?_, ?_, ?_,
    ?_, ?_, rfl, ?_, ?_, rfl⟩
  · simp [createTokenCall, hw, hn, hn0, hd]
  · intro k hk
    exact lookup_jsInsert_other st.tokenMap symbol addr k hk
  · intro k v hkv
    by_cases hk : k = symbol
    · subst hk
      simp [lookup_jsInsert_self]
    · rw [lookup_jsInsert_other st.tokenMap symbol addr k hk, hkv]
      rfl
  · intro pk
    cases hpk : o.walletOf pk <;> simp [setWalletCall, hpk]
  · cases hws : st.wallet <;> simp [getWalletAddressCall, hws]
  · cases hws : st.wallet <;> simp [getBalanceCall, hws]
  · intro a amt
    cases hws : st.wallet <;> cases hss : o.sendSingle <;>
      cases hwt : o.waitSingle <;>
      simp [transferTokensCall, hws, hss, hwt]
  · intro m
    cases hws : st.wallet <;> cases hsg : o.signature <;>
      simp [signMessageCall, hws, hsg]
  · intro c
    cases hws : st.wallet <;> cases hbn : o.blockNumber <;>
      cases hlg : o.logs <;>
      simp [getTransactionHistoryCall, hws, hbn, hlg]
  · cases hgp : o.gasPrice <;> simp [getGasPriceCall, hgp]
  · intro tk
    rcases hpr : o.price with e | _ | p
    · simp [getTokenPriceCall, hpr]
    · simp [getTokenPriceCall, hpr]
    · by_cases hp0 : p = 0 <;> simp [getTokenPriceCall, hpr, hp0]
  · intro a
    by_cases ha : etherIsAddress a = true <;> simp [getFaucetTokensCall, ha]
  · intro t
    cases hws : st.wallet with
    | none => simp [batchMixedTransferCall, hws]
    | some w2 =>
      rw [batchMixedTransferCall.eq_def, hws]
      cases hp : parseTransfers st.tokenMap t with
      | error e => simp [hp]
      | ok items => simp [hp]

theorem token_registry_symbol_keyed_witness :
    (createTokenCall sampleStateTok sampleOracleOk "Alpha" "ATK" "1000").2.1.tokenMap =
      jsInsert [("ATK", addrC)] "ATK" addrB ∧
    lookupMap (jsInsert [("ATK", addrC)] "ATK" addrB) "ATK" = some addrB := by
  obtain h := token_registry_symbol_keyed sampleStateTok sampleOracleOk addrA
    "Alpha" "ATK" "1000" addrB 1000 rfl (by decide) (by decide) rfl
  exact ⟨h.1, h.2.1⟩

end Averix
